import Mathlib

/-!
Shallow embedding of the sumula views of the rei-da-derivada API
(`src/api/api/views/views_sumulas.py`) together with the pieces of the
data model and of `BaseSumulaView` that those views call into.

Conventions of the embedding:
* the relational store is a `DB` record of lists of rows; every operation is a
  pure function `DB → ... → DB × Resp` returning the new store and the response;
* Django `filter(...).first()` becomes `List.find?`, `queryset emptiness`
  becomes `List.isEmpty`, m2m `add` appends to a list of ids;
* `request.data` dictionaries become records whose `Option` fields model
  presence/absence of a key; a numeric field value `0` models Python falsiness
  of an id;
* `request.user.has_perm(p, obj)` becomes membership of `(user, p, event)` in
  the `perms` table of the store;
* responses are `Resp`: `ok code`, `badRequest msg` (the `handle_400_error`
  path), `forbidden` (DRF permission denial), `okData code v` for views that
  return serialized data.

Definitions whose doc comment starts with `Modelled from the spec:` embed code
of the repository that is not under `src/` (notably `base_views.py` and the
split-model serializers); they follow the words of `spec.md`.
-/

set_option autoImplicit false

/-- A user row (`users.models.User`): only the fields the sumula views read. -/
structure User where
  id : Nat
  email : String
deriving DecidableEq

/-- An event row: the sumula views read only its id and admin email. -/
structure Event where
  id : Nat
  admin_email : String
deriving DecidableEq

/-- A staff row: one user acting in one event, with the manager flag. -/
structure Staff where
  id : Nat
  user : Nat
  event : Nat
  is_manager : Bool
deriving DecidableEq

/-- A player row: one user registered to one event. -/
structure Player where
  id : Nat
  user : Nat
  event : Nat
  total_score : Int
  is_imortal : Bool
deriving DecidableEq

/-- The two parallel sumula families of the data model. -/
inductive SumulaKind where
  | classificatoria
  | imortal
deriving DecidableEq

/-- A sumula row (either family): name, the one-way `active` flag and the
m2m referee set, held as a list of staff ids. -/
structure Sumula where
  id : Nat
  event : Nat
  name : String
  active : Bool
  referee : List Nat
deriving DecidableEq

/-- A player-score row, tagged with the family of its owning sumula. -/
structure PlayerScore where
  id : Nat
  event : Nat
  player : Nat
  kind : SumulaKind
  sumula : Nat
  points : Int
deriving DecidableEq

/-- The relational store the views run against. `perms` holds the
group-derived object-scoped grants as `(user id, codename, event id)`. -/
structure DB where
  events : List Event
  staffs : List Staff
  players : List Player
  sumulasClassificatoria : List Sumula
  sumulasImortal : List Sumula
  scores : List PlayerScore
  perms : List (Nat × String × Nat)
  nextSumulaId : Nat
  nextScoreId : Nat
deriving DecidableEq

/-- The sumula table of one family. -/
def DB.sumulasOf (db : DB) : SumulaKind → List Sumula
  | .classificatoria => db.sumulasClassificatoria
  | .imortal => db.sumulasImortal

/-- Replace the sumula table of one family. -/
def DB.setSumulas (db : DB) (k : SumulaKind) (l : List Sumula) : DB :=
  match k with
  | .classificatoria => { db with sumulasClassificatoria := l }
  | .imortal => { db with sumulasImortal := l }

/-- `request.user.has_perm(codename, event)`: the grant table consulted by the
Django permission backend for group-derived object-scoped permissions. -/
def hasPerm (db : DB) (userId : Nat) (codename : String) (eventId : Nat) : Bool :=
  db.perms.contains (userId, codename, eventId)

/-- `HasSumulaPermission.has_object_permission` (views_sumulas.py lines 16-27):
dispatch on the HTTP method to the four CRUD grants, defaulting to `True` for
any other method. -/
def hasSumulaObjectPermission (db : DB) (method : String) (userId : Nat)
    (eventId : Nat) : Bool :=
  if method = "POST" then hasPerm db userId "api.add_sumula_event" eventId
  else if method = "GET" then hasPerm db userId "api.view_sumula_event" eventId
  else if method = "PUT" then hasPerm db userId "api.change_sumula_event" eventId
  else if method = "DELETE" then hasPerm db userId "api.delete_sumula_event" eventId
  else true

/-- `GetSumulaForPlayerPermission.has_object_permission`
(views_sumulas.py lines 333-337). -/
def getSumulaForPlayerPermission (db : DB) (method : String) (userId : Nat)
    (eventId : Nat) : Bool :=
  if method = "GET" then hasPerm db userId "api.view_event" eventId
  else false

/-- A serialized JSON-like value, used for the player-facing projections. -/
inductive JVal where
  | jnum (n : Int)
  | jstr (s : String)
  | jbool (b : Bool)
  | jarr (l : List JVal)
  | jobj (l : List (String × JVal))

/-- Depth-bounded key search in a serialized value: `containsKey d k v` is
true when the key `k` occurs in `v` within nesting depth `d`.  Quantifying
over every `d` expresses that a key occurs nowhere in the value. -/
def containsKey : Nat → String → JVal → Bool
  | 0, _, _ => false
  | d + 1, key, .jarr l => l.any (fun v => containsKey d key v)
  | d + 1, key, .jobj l => l.any (fun p => p.1 == key || containsKey d key p.2)
  | _ + 1, _, _ => false

/-- A response of a view: `ok`/`okData` for 2xx, `badRequest` for the
`handle_400_error` path (`{errors: msg}`), `forbidden` for DRF denials. -/
inductive Resp where
  | ok (code : Nat)
  | okData (code : Nat) (data : JVal)
  | badRequest (msg : String)
  | forbidden

/-- views_sumulas.py line 13. -/
def SUMULA_IS_CLOSED_ERROR_MESSAGE : String :=
  "Súmula já encerrada só pode ser editada por um gerente ou adminstrador!"

/-- Modelled from the spec: the constant of `base_views.py` (not under src/)
used for a missing sumula; its text is fixed by the repository test
`test_update_sumula_not_found`. -/
def SUMULA_NOT_FOUND_ERROR_MESSAGE : String := "Sumula não encontrada!"

/-- Modelled from the spec: the constant of `base_views.py` (not under src/)
used when the sumula id is falsy; the exact text is not observable in src/. -/
def SUMULA_ID_NOT_PROVIDED_ERROR_MESSAGE : String :=
  "É necessário fornecer o id da súmula!"

/-- Modelled from the spec: `BaseSumulaView.get_object` is not under src/.
Per the spec, the event-resolution collaborator returns the Event named by the
request context or a not-provided / not-found failure; the message texts are
fixed by the repository tests of the players views. -/
def get_object (db : DB) (eventId? : Option Nat) : Except String Event :=
  match eventId? with
  | none => .error "event_id é obrigatório!"
  | some i =>
    match db.events.find? (fun e => e.id == i) with
    | none => .error "Evento não encontrado!"
    | some e => .ok e

/-- A player reference in a create payload: a dict that may carry an id. -/
structure PlayerEntry where
  id? : Option Nat
deriving DecidableEq

/-- The payload of a create request. `isDict` models
`validate_request_data_dict`; `Option` fields model key presence. -/
structure CreateBody where
  isDict : Bool
  name? : Option String
  players? : Option (List PlayerEntry)
  referees? : Option (List Nat)
deriving DecidableEq

/-- Modelled from the spec: `BaseSumulaView.validate_players` is not under
src/. Per the spec, `players` must be a present, non-empty sequence of player
references. -/
def validate_players (b : CreateBody) : Bool :=
  match b.players? with
  | none => false
  | some l => !l.isEmpty

/-- Modelled from the spec: `BaseSumulaView.validate_referees` is not under
src/. Per spec section 4.2 Create, `referees` is a sequence of staff
references that may be empty, and an unresolvable referee id is a validation
failure reported before any persistence; so the key must be present and every
supplied reference must resolve to an existing Staff row. -/
def validate_referees (db : DB) (b : CreateBody) : Bool :=
  match b.referees? with
  | none => false
  | some l => l.all (fun r => db.staffs.any (fun st => st.id == r))

/-- Resolution of the player references of a create payload against the
player table: every entry must carry an id naming an existing Player row;
`none` as soon as one reference fails to resolve. -/
def resolvePlayerEntries (players : List Player) : List PlayerEntry → Option (List Player)
  | [] => some []
  | e :: rest =>
    match e.id?.bind (fun i => players.find? (fun p => p.id == i)) with
    | none => none
    | some p =>
      match resolvePlayerEntries players rest with
      | none => none
      | some l => some (p :: l)

/-- Modelled from the spec: `BaseSumulaView.create_players_score` is not under
src/. Per the spec it creates, for every player of the payload, exactly one
PlayerScore with points = 0, and "no partial PlayerScore set is persisted":
every reference is resolved before anything is written, and an unresolvable
reference raises (modelled as `none`) with nothing created. -/
def create_players_score (db : DB) (event : Event) (kind : SumulaKind)
    (sumulaId : Nat) (entries : List PlayerEntry) : Option DB :=
  match resolvePlayerEntries db.players entries with
  | none => none
  | some ps =>
    some { db with
      scores := db.scores ++ ps.enum.map (fun q =>
        { id := db.nextScoreId + q.1, event := event.id, player := q.2.id,
          kind := kind, sumula := sumulaId, points := 0 }),
      nextScoreId := db.nextScoreId + ps.length }

/-- Modelled from the spec: `BaseSumulaView.add_referees` is not under src/.
Per spec sections 4.2 and 4.4, at Create the referees are freely set from the
provided list: every supplied staff reference — already validated by
`validate_referees` to resolve before any persistence — is attached to the
referee set of the new sumula. -/
def add_referees (db : DB) (event : Event) (kind : SumulaKind) (sumulaId : Nat)
    (referees : List Nat) : DB :=
  db.setSumulas kind ((db.sumulasOf kind).map (fun s =>
    if s.id == sumulaId then { s with referee := s.referee ++ referees }
    else s))

/-- The store right after `SumulaClassificatoria.objects.create` /
`SumulaImortal.objects.create`: the new sumula row (active, no referees) is
appended to its family table and the id counter advances. -/
def createdSumulaDB (db : DB) (kind : SumulaKind) (event : Event) (name : String) : DB :=
  { db.setSumulas kind ((db.sumulasOf kind) ++
      [{ id := db.nextSumulaId, event := event.id, name := name,
         active := true, referee := [] }]) with
    nextSumulaId := db.nextSumulaId + 1 }

/-- `SumulaClassificatoriaView.post` / `SumulaImortalView.post`
(views_sumulas.py lines 93-116 and 207-232; the two methods differ only in the
model class, embedded here by the `kind` argument): validate the payload,
resolve the event, check the object permission, create the sumula row, then
the player scores — a failure there is answered with 400 *without removing the
already created sumula row* — then attach the referees. -/
def sumulaPost (db : DB) (kind : SumulaKind) (authed : Bool) (user : User)
    (eventId? : Option Nat) (body : CreateBody) : DB × Resp :=
  if !authed then (db, .forbidden) else
  if !(body.isDict && body.name?.isSome && validate_players body && validate_referees db body) then
    (db, .badRequest "Dados inválidos!")
  else
    match get_object db eventId? with
    | .error e => (db, .badRequest e)
    | .ok event =>
      if !hasSumulaObjectPermission db "POST" user.id event.id then (db, .forbidden) else
      match create_players_score (createdSumulaDB db kind event (body.name?.getD ""))
          event kind db.nextSumulaId (body.players?.getD []) with
      | none => (createdSumulaDB db kind event (body.name?.getD ""),
                 .badRequest "Jogador não encontrado!")
      | some db2 => (add_referees db2 event kind db.nextSumulaId (body.referees?.getD []),
                     .ok 201)

/-- One entry of the `players_score` list of an update payload. -/
structure ScoreEntry where
  id? : Option Nat
  points : Int
deriving DecidableEq

/-- The payload of an Update/Close request. `id? = some 0` models a present
but falsy id value. -/
structure UpdateBody where
  isDict : Bool
  id? : Option Nat
  hasName : Bool
  name : String
  hasDescription : Bool
  referees : List Nat
  players_score? : Option (List ScoreEntry)
deriving DecidableEq

/-- Modelled from the spec: `BaseSumulaView.validate_players_score` is not
under src/. Per the spec, a `players_score` entry missing its `id` invalidates
the whole request, so the list must be present and every entry must carry an
id. -/
def validate_players_score (b : UpdateBody) : Bool :=
  match b.players_score? with
  | none => false
  | some l => l.all (fun e => e.id?.isSome)

/-- Modelled from the spec: `BaseSumulaView.validate_if_staff_is_sumula_referee`
is not under src/. Per spec section 4.1 the closed-sumula rule depends only on
the requester having a Staff record for the event (deny when absent), and per
section 4.2 an open sumula is editable by any staff with change-permission, so
the lookup returns the Staff row of (user, event), raising when there is none;
no referee-membership condition is modelled. -/
def validate_if_staff_is_sumula_referee (db : DB) (user : User) (event : Event) :
    Except String Staff :=
  match db.staffs.find? (fun s => s.user == user.id && s.event == event.id) with
  | none => .error "Usuário não é um monitor do evento!"
  | some s => .ok s

/-- Point updates of one score row under the supplied entries: every entry
whose id names this row of this sumula overwrites its points; later entries
win, matching a sequential loop over the payload. -/
def applyEntriesToScore (kind : SumulaKind) (sumulaId : Nat)
    (entries : List ScoreEntry) (ps : PlayerScore) : PlayerScore :=
  entries.foldl (fun ps e =>
    if e.id? == some ps.id && decide (ps.kind = kind) && ps.sumula == sumulaId then
      { ps with points := e.points }
    else ps) ps

/-- The defined aggregation of a player: the sum of the points of the player
PlayerScore rows of one sumula family within one event. -/
def aggScore (scores : List PlayerScore) (kind : SumulaKind)
    (eventId playerId : Nat) : Int :=
  ((scores.filter (fun ps => ps.player == playerId && ps.event == eventId &&
      decide (ps.kind = kind))).map (fun ps => ps.points)).sum

/-- Modelled from the spec: a piece of `BaseSumulaView.update_sumula` (not
under src/) — whether one players_score entry carries an id resolving to a
PlayerScore row of the given sumula. -/
def scoreEntryResolves (db : DB) (kind : SumulaKind) (sumulaId : Nat)
    (e : ScoreEntry) : Bool :=
  match e.id? with
  | none => false
  | some i => db.scores.any (fun ps =>
      ps.id == i && decide (ps.kind = kind) && ps.sumula == sumulaId)

/-- The score table after the point overwrites of an update payload. -/
def updatedScores (db : DB) (kind : SumulaKind) (sumulaId : Nat)
    (entries : List ScoreEntry) : List PlayerScore :=
  db.scores.map (applyEntriesToScore kind sumulaId entries)

/-- The owning players of the score rows of this sumula that the payload
names: their total_score is recomputed by the update. -/
def affectedPlayers (db : DB) (kind : SumulaKind) (sumulaId : Nat)
    (entries : List ScoreEntry) : List Nat :=
  (db.scores.filter (fun ps =>
      decide (ps.kind = kind) && ps.sumula == sumulaId &&
      entries.any (fun e => e.id? == some ps.id))).map (fun ps => ps.player)

/-- Modelled from the spec: `BaseSumulaView.update_sumula` is not under src/.
Per spec section 4.2 Update/Close: first validate that every `players_score`
id resolves to a PlayerScore of this sumula — any unresolvable id raises
before any write, modelled as `.error` — then overwrite the sumula name,
replace its referee set with the supplied referees, overwrite the points of
each named score row, recompute the total_score of every owning player as the
aggregation of its points for this event and family, and set active := false. -/
def update_sumula (db : DB) (kind : SumulaKind) (sumulaId : Nat) (event : Event)
    (body : UpdateBody) : Except String DB :=
  if (body.players_score?.getD []).all (scoreEntryResolves db kind sumulaId) then
    .ok { (db.setSumulas kind ((db.sumulasOf kind).map (fun s =>
            if s.id == sumulaId then
              { s with name := body.name, referee := body.referees, active := false }
            else s))) with
      scores := updatedScores db kind sumulaId (body.players_score?.getD []),
      players := db.players.map (fun p =>
        if (affectedPlayers db kind sumulaId (body.players_score?.getD [])).contains p.id then
          { p with total_score := aggScore (updatedScores db kind sumulaId
              (body.players_score?.getD [])) kind event.id p.id }
        else p) }
  else .error "Dados inválidos!"

/-- The tail of both put methods: run `update_sumula`, answering 400 with the
raised message or 200 on success. -/
def runUpdateSumula (db : DB) (kind : SumulaKind) (sumulaId : Nat)
    (event : Event) (body : UpdateBody) : DB × Resp :=
  match update_sumula db kind sumulaId event body with
  | .error e => (db, .badRequest e)
  | .ok db2 => (db2, .ok 200)

/-- `SumulaClassificatoriaView.put` / `SumulaImortalView.put`
(views_sumulas.py lines 130-166 and 246-280): the two methods differ in the
model class and in that only the classificatoria variant runs
`validate_players_score` on the payload (line 139, answering
"Dados Invalidos!"); both then test the falsy id, resolve the sumula and the
event, check the object permission, apply the admin / staff / closed-sumula
rule and call `update_sumula`. -/
def sumulaPut (db : DB) (kind : SumulaKind) (authed : Bool) (user : User)
    (eventId? : Option Nat) (body : UpdateBody) : DB × Resp :=
  if !authed then (db, .forbidden) else
  if !(body.isDict && body.id?.isSome && body.hasName && body.hasDescription) then
    (db, .badRequest "Dados inválidos!")
  else
  if decide (kind = .classificatoria) && !validate_players_score body then
    (db, .badRequest "Dados Invalidos!")
  else
  if body.id?.getD 0 == 0 then (db, .badRequest SUMULA_ID_NOT_PROVIDED_ERROR_MESSAGE) else
  match (db.sumulasOf kind).find? (fun s => s.id == body.id?.getD 0) with
  | none => (db, .badRequest SUMULA_NOT_FOUND_ERROR_MESSAGE)
  | some sumula =>
    match get_object db eventId? with
    | .error e => (db, .badRequest e)
    | .ok event =>
      if !hasSumulaObjectPermission db "PUT" user.id event.id then (db, .forbidden) else
      if user.email == event.admin_email then
        runUpdateSumula db kind sumula.id event body
      else
        match validate_if_staff_is_sumula_referee db user event with
        | .error e => (db, .badRequest e)
        | .ok staff =>
          if !sumula.active && !staff.is_manager then
            (db, .badRequest SUMULA_IS_CLOSED_ERROR_MESSAGE)
          else
            runUpdateSumula db kind sumula.id event body

/-- The payload of an AddReferee request: presence-modelled `sumula_id` and
`is_imortal`; `some 0` models a present but falsy id. -/
structure AddRefereeBody where
  isDict : Bool
  sumula_id? : Option Nat
  is_imortal? : Option Bool
deriving DecidableEq

/-- The sumula family selected by the `is_imortal` flag of a request. -/
def kindOfFlag (b : Bool) : SumulaKind :=
  if b then SumulaKind.imortal else SumulaKind.classificatoria

/-- `AddRefereeToSumulaView.put` (views_sumulas.py lines 411-435): validate
the payload and the falsy id, resolve the event, check the object permission,
look up the Staff row of the requester (400 when absent), select the sumula by
id in the family named by `is_imortal` (400 when absent), reject with a
conflict when the sumula already has one or more referees, otherwise attach
the requesting staff member. -/
def addRefereeToSumulaPut (db : DB) (authed : Bool) (user : User)
    (eventId? : Option Nat) (body : AddRefereeBody) : DB × Resp :=
  if !authed then (db, .forbidden) else
  if !(body.isDict && body.sumula_id?.isSome && body.is_imortal?.isSome) then
    (db, .badRequest "Dados inválidos!")
  else
  if body.sumula_id?.getD 0 == 0 then
    (db, .badRequest SUMULA_ID_NOT_PROVIDED_ERROR_MESSAGE)
  else
    match get_object db eventId? with
    | .error e => (db, .badRequest e)
    | .ok event =>
      if !hasSumulaObjectPermission db "PUT" user.id event.id then (db, .forbidden) else
      match db.staffs.find? (fun s => s.user == user.id && s.event == event.id) with
      | none => (db, .badRequest "Usuário não é um monitor do evento!")
      | some staff =>
        match (db.sumulasOf (kindOfFlag (body.is_imortal?.getD false))).find?
            (fun s => s.id == body.sumula_id?.getD 0) with
        | none => (db, .badRequest SUMULA_NOT_FOUND_ERROR_MESSAGE)
        | some sumula =>
          if sumula.referee.length > 0 then
            (db, .badRequest "Súmula já possui um ou mais árbitros!")
          else
            (db.setSumulas (kindOfFlag (body.is_imortal?.getD false))
              ((db.sumulasOf (kindOfFlag (body.is_imortal?.getD false))).map (fun s =>
                if s.id == sumula.id then
                  { s with referee := if s.referee.contains staff.id then s.referee
                                      else s.referee ++ [staff.id] }
                else s)), .ok 200)

/-- Whether the owning sumula (in one family) of a score row is active. -/
def sumulaIsActive (db : DB) (kind : SumulaKind) (sumulaId : Nat) : Bool :=
  match (db.sumulasOf kind).find? (fun s => s.id == sumulaId) with
  | none => false
  | some s => s.active

/-- Modelled from the spec: `SumulaImortalForPlayerSerializer` and
`SumulaClassificatoriaForPlayerSerializer` are not under src/. Per the spec,
the player-facing view exposes only identity, name, active flag and referees,
never points. -/
def sumulaForPlayerView (s : Sumula) : JVal :=
  .jobj [("id", .jnum (Int.ofNat s.id)), ("active", .jbool s.active),
         ("name", .jstr s.name),
         ("referee", .jarr (s.referee.map (fun r =>
           .jobj [("id", .jnum (Int.ofNat r))])))]

/-- The sumula family matching the eligibility class of a player. -/
def playerKind (p : Player) : SumulaKind :=
  if p.is_imortal then SumulaKind.imortal else SumulaKind.classificatoria

/-- The score rows of one player whose owning sumula, in the given family, is
active: the queryset of `GetSumulaForPlayer.get`. -/
def activeScoresOfPlayer (db : DB) (k : SumulaKind) (pid : Nat) : List PlayerScore :=
  db.scores.filter (fun ps =>
    ps.player == pid && decide (ps.kind = k) && sumulaIsActive db k ps.sumula)

/-- `GetSumulaForPlayer.get` (views_sumulas.py lines 352-383): resolve the
event, check the view_event permission, look up the Player row of the
requester, select the score rows of the player whose owning sumula — in the
family matching `is_imortal` — is active, answer a domain 400 when there are
none, otherwise serialize the owning sumulas through the player-facing
projection. -/
def getSumulaForPlayerGet (db : DB) (authed : Bool) (user : User)
    (eventId? : Option Nat) : DB × Resp :=
  if !authed then (db, .forbidden) else
  match get_object db eventId? with
  | .error e => (db, .badRequest e)
  | .ok event =>
    if !getSumulaForPlayerPermission db "GET" user.id event.id then (db, .forbidden) else
    match db.players.find? (fun p => p.user == user.id && p.event == event.id) with
    | none => (db, .badRequest "Jogador não encontrado!")
    | some player =>
      if (activeScoresOfPlayer db (playerKind player) player.id).isEmpty then
        (db, .badRequest "Jogador não possui nenhuma sumula associada!")
      else
        (db, .okData 200 (.jarr (((activeScoresOfPlayer db (playerKind player)
            player.id).filterMap (fun ps =>
          (db.sumulasOf (playerKind player)).find? (fun s => s.id == ps.sumula))).map
            sumulaForPlayerView)))

/-- `GetSumulasView.get`, `ActiveSumulaView.get`, `FinishedSumulaView.get`
(views_sumulas.py lines 41-52, 294-305, 319-330): read-only — resolve the
event, check the view permission and serialize; the store is never changed, so
the serialized data is elided here. -/
def getSumulasGet (db : DB) (authed : Bool) (user : User)
    (eventId? : Option Nat) : DB × Resp :=
  if !authed then (db, .forbidden) else
  match get_object db eventId? with
  | .error e => (db, .badRequest e)
  | .ok event =>
    if !hasSumulaObjectPermission db "GET" user.id event.id then (db, .forbidden) else
    (db, .ok 200)

/-- One inbound request against any of the sumula views. -/
inductive Op where
  | post (kind : SumulaKind) (authed : Bool) (user : User)
      (eventId? : Option Nat) (body : CreateBody)
  | put (kind : SumulaKind) (authed : Bool) (user : User)
      (eventId? : Option Nat) (body : UpdateBody)
  | addReferee (authed : Bool) (user : User)
      (eventId? : Option Nat) (body : AddRefereeBody)
  | getSumulas (authed : Bool) (user : User) (eventId? : Option Nat)
  | getForPlayer (authed : Bool) (user : User) (eventId? : Option Nat)

/-- Dispatch one request against the store. -/
def applyOp (db : DB) : Op → DB × Resp
  | .post kind authed user eventId? body => sumulaPost db kind authed user eventId? body
  | .put kind authed user eventId? body => sumulaPut db kind authed user eventId? body
  | .addReferee authed user eventId? body => addRefereeToSumulaPut db authed user eventId? body
  | .getSumulas authed user eventId? => getSumulasGet db authed user eventId?
  | .getForPlayer authed user eventId? => getSumulaForPlayerGet db authed user eventId?

/-- Positionwise preservation of closedness between two sumula tables: no row
is dropped, every row keeps its identity, and a closed row never becomes
active again. -/
def closedPreserved (l l' : List Sumula) : Prop :=
  l.length ≤ l'.length ∧
  ∀ i (h : i < l.length) (h' : i < l'.length),
    (l.get ⟨i, h⟩).id = (l'.get ⟨i, h'⟩).id ∧
    ((l.get ⟨i, h⟩).active = false → (l'.get ⟨i, h'⟩).active = false)

/-- The admin of the sample event below. -/
def adminUser : User := ⟨1, "adm@rdd.br"⟩

/-- A regular monitor (staff row 3, not a manager) of the sample event. -/
def staffUser : User := ⟨2, "mon@rdd.br"⟩

/-- The user owning the imortal player row 8 of the sample event. -/
def imortalUser : User := ⟨9, "im@rdd.br"⟩

/-- A sample store: one event (admin `adm@rdd.br`), one non-manager staff row,
one classificatoria player and one imortal player, one open sumula in each
family and one zero-point score row in each. -/
def baseDB : DB :=
  { events := [⟨1, "adm@rdd.br"⟩],
    staffs := [⟨3, 2, 1, false⟩],
    players := [⟨5, 7, 1, 0, false⟩, ⟨8, 9, 1, 0, true⟩],
    sumulasClassificatoria := [⟨10, 1, "quali 01", true, []⟩],
    sumulasImortal := [⟨11, 1, "imortais 01", true, [3]⟩],
    scores := [⟨20, 1, 5, .classificatoria, 10, 0⟩, ⟨21, 1, 8, .imortal, 11, 0⟩],
    perms := [(1, "api.add_sumula_event", 1), (1, "api.change_sumula_event", 1),
              (2, "api.change_sumula_event", 1), (7, "api.view_event", 1),
              (9, "api.view_event", 1)],
    nextSumulaId := 12, nextScoreId := 22 }

/-- `baseDB` with the classificatoria sumula already closed. -/
def closedDB : DB :=
  { baseDB with sumulasClassificatoria := [⟨10, 1, "quali 01", false, []⟩] }

/-- `baseDB` with every permission grant removed. -/
def noGrantDB : DB := { baseDB with perms := [] }

/-- `closedDB` with every permission grant removed. -/
def closedNoGrantDB : DB := { closedDB with perms := [] }

/-- A well-formed Update/Close payload for sumula 10 / score row 20. -/
def updBody : UpdateBody :=
  { isDict := true, id? := some 10, hasName := true, name := "quali 01 final",
    hasDescription := true, referees := [3], players_score? := some [⟨some 20, 10⟩] }

/-- `updBody` with the id of its players_score entry missing. -/
def updBodyNoScoreId : UpdateBody :=
  { updBody with players_score? := some [⟨none, 10⟩] }

/-- A well-formed AddReferee payload targeting classificatoria sumula 10. -/
def addRefBody : AddRefereeBody :=
  { isDict := true, sumula_id? := some 10, is_imortal? := some false }

/-- A well-formed create payload referencing the classificatoria player 5. -/
def createBody : CreateBody :=
  { isDict := true, name? := some "quali 02", players? := some [⟨some 5⟩],
    referees? := some [] }

/-- `createBody` with an unresolvable player reference. -/
def createBodyBadPlayer : CreateBody :=
  { createBody with players? := some [⟨some 42⟩] }

/-- The store after the admin closes sumula 10 of `baseDB` through `updBody`:
name and referee set overwritten, active = false, score row 20 at 10 points,
player 5 at total_score 10. -/
def C2resultDB : DB :=
  { events := [⟨1, "adm@rdd.br"⟩],
    staffs := [⟨3, 2, 1, false⟩],
    players := [⟨5, 7, 1, 10, false⟩, ⟨8, 9, 1, 0, true⟩],
    sumulasClassificatoria := [⟨10, 1, "quali 01 final", false, [3]⟩],
    sumulasImortal := [⟨11, 1, "imortais 01", true, [3]⟩],
    scores := [⟨20, 1, 5, .classificatoria, 10, 10⟩, ⟨21, 1, 8, .imortal, 11, 0⟩],
    perms := [(1, "api.add_sumula_event", 1), (1, "api.change_sumula_event", 1),
              (2, "api.change_sumula_event", 1), (7, "api.view_event", 1),
              (9, "api.view_event", 1)],
    nextSumulaId := 12, nextScoreId := 22 }

theorem DB.sumulasOf_setSumulas_self (db : DB) (k : SumulaKind) (l : List Sumula) :
    (db.setSumulas k l).sumulasOf k = l := by
  cases k <;> rfl

theorem DB.sumulasOf_setSumulas_ne (db : DB) {k k' : SumulaKind} (l : List Sumula)
    (h : k' ≠ k) : (db.setSumulas k l).sumulasOf k' = db.sumulasOf k' := by
  cases k <;> cases k' <;> first | rfl | exact absurd rfl h

theorem DB.players_setSumulas (db : DB) (k : SumulaKind) (l : List Sumula) :
    (db.setSumulas k l).players = db.players := by
  cases k <;> rfl

theorem DB.scores_setSumulas (db : DB) (k : SumulaKind) (l : List Sumula) :
    (db.setSumulas k l).scores = db.scores := by
  cases k <;> rfl

theorem DB.staffs_setSumulas (db : DB) (k : SumulaKind) (l : List Sumula) :
    (db.setSumulas k l).staffs = db.staffs := by
  cases k <;> rfl

theorem DB.events_setSumulas (db : DB) (k : SumulaKind) (l : List Sumula) :
    (db.setSumulas k l).events = db.events := by
  cases k <;> rfl

theorem DB.perms_setSumulas (db : DB) (k : SumulaKind) (l : List Sumula) :
    (db.setSumulas k l).perms = db.perms := by
  cases k <;> rfl

theorem DB.nextScoreId_setSumulas (db : DB) (k : SumulaKind) (l : List Sumula) :
    (db.setSumulas k l).nextScoreId = db.nextScoreId := by
  cases k <;> rfl

/-- C10: for every request whose HTTP method is none of POST, GET, PUT or
DELETE, `HasSumulaPermission.has_object_permission` returns True — the gate
allows by default without consulting any permission grant. -/
theorem C10_unknown_method_default_allow (db : DB) (userId eventId : Nat)
    (m : String) (h1 : m ≠ "POST") (h2 : m ≠ "GET") (h3 : m ≠ "PUT")
    (h4 : m ≠ "DELETE") :
    hasSumulaObjectPermission db m userId eventId = true := by
  simp [hasSumulaObjectPermission, h1, h2, h3, h4]

/-- C10 witness: the gate allows a PATCH request on the grant-free store. -/
theorem C10_unknown_method_default_allow_witness :
    ("PATCH" ≠ "POST" ∧ "PATCH" ≠ "GET" ∧ "PATCH" ≠ "PUT" ∧ "PATCH" ≠ "DELETE") ∧
    hasSumulaObjectPermission noGrantDB "PATCH" 2 1 = true :=
  ⟨⟨by decide, by decide, by decide, by decide⟩,
   C10_unknown_method_default_allow noGrantDB 2 1 "PATCH" (by decide) (by decide)
     (by decide) (by decide)⟩

/-- C8: the repository test `test_update_sumula_without_player_score_id`
expects 400 with the message "Dados inválidos!" when a players_score entry
misses its id, and the spec repeats that message; but
`SumulaClassificatoriaView.put` (views_sumulas.py line 140) answers such
payloads with the differently spelled message "Dados Invalidos!". At a
concrete, otherwise fully valid request the store is left unchanged and the
reply is 400 carrying the misspelled message. -/
theorem C8_missing_score_id_wrong_message :
    sumulaPut baseDB .classificatoria true adminUser (some 1) updBodyNoScoreId =
      (baseDB, .badRequest "Dados Invalidos!") ∧
    "Dados Invalidos!" ≠ "Dados inválidos!" :=
  ⟨rfl, by decide⟩

/-- C6 counterexample: on the grant-free store the event admin (email equal to
`admin_email`) is denied by the object-permission gate for PUT: the gate
(views_sumulas.py lines 16-27) consults only `has_perm`, so the admin-by-email
rule does not precede it, and an otherwise valid Update/Close by the admin is
answered with a permission denial rather than being allowed unconditionally. -/
theorem C6_admin_not_unconditional_counterexample :
    adminUser.email = (⟨1, "adm@rdd.br"⟩ : Event).admin_email ∧
    hasSumulaObjectPermission noGrantDB "PUT" adminUser.id 1 = false ∧
    sumulaPut noGrantDB .classificatoria true adminUser (some 1) updBody =
      (noGrantDB, .forbidden) :=
  ⟨rfl, by decide, rfl⟩

theorem resolvePlayerEntries_length (players : List Player) :
    ∀ (entries : List PlayerEntry) (ps : List Player),
      resolvePlayerEntries players entries = some ps → ps.length = entries.length := by
  intro entries
  induction entries with
  | nil =>
    intro ps h
    simp only [resolvePlayerEntries, Option.some.injEq] at h
    simp [← h]
  | cons e rest ih =>
    intro ps h
    unfold resolvePlayerEntries at h
    cases he : e.id?.bind (fun i => players.find? (fun p => p.id == i)) with
    | none => rw [he] at h; exact absurd h (by simp)
    | some p =>
      rw [he] at h
      cases hr : resolvePlayerEntries players rest with
      | none => rw [hr] at h; exact absurd h (by simp)
      | some l =>
        rw [hr] at h
        injection h with h
        subst h
        simp [ih l hr]

theorem add_referees_scores (db : DB) (event : Event) (kind : SumulaKind)
    (sid : Nat) (refs : List Nat) :
    (add_referees db event kind sid refs).scores = db.scores := by
  unfold add_referees
  exact DB.scores_setSumulas ..

theorem add_referees_length (db : DB) (event : Event) (kind : SumulaKind)
    (sid : Nat) (refs : List Nat) :
    ((add_referees db event kind sid refs).sumulasOf kind).length =
      (db.sumulasOf kind).length := by
  unfold add_referees
  rw [DB.sumulasOf_setSumulas_self, List.length_map]

/-- C1 counterexample: a create request whose single player reference does not
resolve reports a validation failure, yet the freshly created sumula row stays
persisted: after the call there are two classificatoria sumula rows where the
claim demands zero new ones (the store started with one). -/
theorem C1_create_no_rollback_counterexample :
    (sumulaPost baseDB .classificatoria true adminUser (some 1)
        createBodyBadPlayer).2 = .badRequest "Jogador não encontrado!" ∧
    baseDB.sumulasClassificatoria.length = 1 ∧
    (sumulaPost baseDB .classificatoria true adminUser (some 1)
        createBodyBadPlayer).1.sumulasClassificatoria.length = 2 ∧
    (sumulaPost baseDB .classificatoria true adminUser (some 1)
        createBodyBadPlayer).1.scores = baseDB.scores :=
  ⟨rfl, rfl, by decide, by decide⟩

/-- C1 amended: for every authorized create request whose payload is a dict
with a name and a non-empty players list: a payload whose referee references
do not all resolve is rejected at validation with nothing persisted; otherwise
exactly one new sumula row is appended in every case; when all N player
references resolve the reply is 201 and exactly N new PlayerScore rows, each
with points = 0, are appended; when a player reference fails to resolve the
reply is a 400 validation failure and no PlayerScore row is persisted, but
the new sumula row itself is not rolled back. -/
theorem C1_create_amended (db : DB) (kind : SumulaKind) (user : User)
    (eventId? : Option Nat) (body : CreateBody) (event : Event)
    (hdict : body.isDict = true)
    (hname : body.name?.isSome = true)
    (hplayers : validate_players body = true)
    (hev : get_object db eventId? = .ok event)
    (hperm : hasSumulaObjectPermission db "POST" user.id event.id = true) :
    (validate_referees db body = false →
      sumulaPost db kind true user eventId? body =
        (db, .badRequest "Dados inválidos!")) ∧
    (validate_referees db body = true →
      ((sumulaPost db kind true user eventId? body).1.sumulasOf kind).length =
        (db.sumulasOf kind).length + 1 ∧
      (∀ ps, resolvePlayerEntries db.players (body.players?.getD []) = some ps →
        (sumulaPost db kind true user eventId? body).2 = .ok 201 ∧
        ∃ l, (sumulaPost db kind true user eventId? body).1.scores =
            db.scores ++ l ∧
          l.length = (body.players?.getD []).length ∧
          ∀ s ∈ l, s.points = 0) ∧
      (resolvePlayerEntries db.players (body.players?.getD []) = none →
        (∃ m, (sumulaPost db kind true user eventId? body).2 = .badRequest m) ∧
        (sumulaPost db kind true user eventId? body).1.scores = db.scores)) := by
  constructor
  · intro href
    unfold sumulaPost
    simp [hdict, hname, hplayers, href]
  · intro href
    cases kind
    all_goals
      unfold sumulaPost
      rw [hev]
      simp only [hdict, hname, hplayers, href, Bool.true_and, Bool.and_true,
        hperm, Bool.not_true, Bool.false_eq_true, if_false]
      unfold create_players_score createdSumulaDB
      simp only [DB.setSumulas, DB.sumulasOf]
      cases hres : resolvePlayerEntries db.players (body.players?.getD []) with
      | none =>
        refine ⟨by simp, ?_, ?_⟩
        · intro ps hps
          exact Option.noConfusion hps
        · intro _
          exact ⟨⟨"Jogador não encontrado!", rfl⟩, rfl⟩
      | some ps =>
        refine ⟨?_, ?_, ?_⟩
        · simp [add_referees, DB.setSumulas, DB.sumulasOf]
        · intro ps' hps'
          injection hps' with hps'
          subst hps'
          refine ⟨rfl, ?_⟩
          refine ⟨_, rfl, ?_, ?_⟩
          · rw [List.length_map, List.enum_length]
            exact resolvePlayerEntries_length db.players _ ps hres
          · intro s hs
            rw [List.mem_map] at hs
            obtain ⟨q, _, hq⟩ := hs
            rw [← hq]
        · intro hnone
          exact Option.noConfusion hnone

/-- C1 witness for the amended theorem: a concrete valid create (resolvable
player reference, empty — hence trivially resolvable — referee list) on the
sample store. -/
theorem C1_create_amended_witness :
    ((createBody.isDict = true ∧ createBody.name?.isSome = true ∧
        validate_players createBody = true ∧
        validate_referees baseDB createBody = true) ∧
      get_object baseDB (some 1) = .ok ⟨1, "adm@rdd.br"⟩ ∧
      hasSumulaObjectPermission baseDB "POST" adminUser.id 1 = true) ∧
    ((validate_referees baseDB createBody = false →
      sumulaPost baseDB .classificatoria true adminUser (some 1) createBody =
        (baseDB, .badRequest "Dados inválidos!")) ∧
    (validate_referees baseDB createBody = true →
      ((sumulaPost baseDB .classificatoria true adminUser (some 1)
          createBody).1.sumulasOf .classificatoria).length =
        (baseDB.sumulasOf .classificatoria).length + 1 ∧
      (∀ ps, resolvePlayerEntries baseDB.players (createBody.players?.getD []) =
          some ps →
        (sumulaPost baseDB .classificatoria true adminUser (some 1)
          createBody).2 = .ok 201 ∧
        ∃ l, (sumulaPost baseDB .classificatoria true adminUser (some 1)
            createBody).1.scores = baseDB.scores ++ l ∧
          l.length = (createBody.players?.getD []).length ∧
          ∀ s ∈ l, s.points = 0) ∧
      (resolvePlayerEntries baseDB.players (createBody.players?.getD []) = none →
        (∃ m, (sumulaPost baseDB .classificatoria true adminUser (some 1)
            createBody).2 = .badRequest m) ∧
        (sumulaPost baseDB .classificatoria true adminUser (some 1)
            createBody).1.scores = baseDB.scores))) :=
  ⟨⟨⟨rfl, rfl, by decide, by decide⟩, rfl, by decide⟩,
   C1_create_amended baseDB .classificatoria adminUser (some 1) createBody
     ⟨1, "adm@rdd.br"⟩ rfl rfl (by decide) rfl (by decide)⟩

theorem closedPreserved_refl (l : List Sumula) : closedPreserved l l :=
  ⟨le_refl _, fun _ _ _ => ⟨rfl, fun ha => ha⟩⟩

theorem closedPreserved_map (l : List Sumula) (f : Sumula → Sumula)
    (hid : ∀ s, (f s).id = s.id)
    (hact : ∀ s, s.active = false → (f s).active = false) :
    closedPreserved l (l.map f) := by
  refine ⟨by simp, fun i h h' => ?_⟩
  have hg : (l.map f).get ⟨i, h'⟩ = f (l.get ⟨i, h⟩) := by simp
  rw [hg]
  exact ⟨(hid _).symm, hact _⟩

theorem closedPreserved_append (l l₂ : List Sumula) :
    closedPreserved l (l ++ l₂) := by
  refine ⟨by simp, fun i h h' => ?_⟩
  have hg : (l ++ l₂).get ⟨i, h'⟩ = l.get ⟨i, h⟩ := List.getElem_append_left h
  rw [hg]
  exact ⟨rfl, fun ha => ha⟩

theorem closedPreserved_trans {l₁ l₂ l₃ : List Sumula}
    (h12 : closedPreserved l₁ l₂) (h23 : closedPreserved l₂ l₃) :
    closedPreserved l₁ l₃ := by
  obtain ⟨hl12, h12⟩ := h12
  obtain ⟨hl23, h23⟩ := h23
  refine ⟨le_trans hl12 hl23, fun i h h' => ?_⟩
  have h2 : i < l₂.length := lt_of_lt_of_le h hl12
  obtain ⟨hid12, hact12⟩ := h12 i h h2
  obtain ⟨hid23, hact23⟩ := h23 i h2 h'
  exact ⟨hid12.trans hid23, fun ha => hact23 (hact12 ha)⟩

theorem DB.sumulasOf_scores_players (db : DB) (l : List PlayerScore)
    (pl : List Player) (k : SumulaKind) :
    ({ db with scores := l, players := pl } : DB).sumulasOf k = db.sumulasOf k := by
  cases k <;> rfl

theorem createdSumulaDB_sumulasOf_self (db : DB) (k : SumulaKind)
    (event : Event) (name : String) :
    (createdSumulaDB db k event name).sumulasOf k = db.sumulasOf k ++
      [{ id := db.nextSumulaId, event := event.id, name := name,
         active := true, referee := [] }] := by
  cases k <;> rfl

theorem createdSumulaDB_sumulasOf_ne (db : DB) {kind k : SumulaKind}
    (event : Event) (name : String) (h : k ≠ kind) :
    (createdSumulaDB db kind event name).sumulasOf k = db.sumulasOf k := by
  cases kind <;> cases k <;> first | rfl | exact absurd rfl h

theorem createdSumulaDB_closedPreserved (db : DB) (kind : SumulaKind)
    (event : Event) (name : String) (k : SumulaKind) :
    closedPreserved (db.sumulasOf k) ((createdSumulaDB db kind event name).sumulasOf k) := by
  by_cases hk : k = kind
  · subst hk
    rw [createdSumulaDB_sumulasOf_self]
    exact closedPreserved_append _ _
  · rw [createdSumulaDB_sumulasOf_ne _ _ _ hk]
    exact closedPreserved_refl _

theorem create_players_score_sumulasOf (db : DB) (event : Event)
    (kind : SumulaKind) (sid : Nat) (entries : List PlayerEntry) (db2 : DB)
    (h : create_players_score db event kind sid entries = some db2) (k : SumulaKind) :
    db2.sumulasOf k = db.sumulasOf k := by
  unfold create_players_score at h
  cases hres : resolvePlayerEntries db.players entries with
  | none => rw [hres] at h; exact Option.noConfusion h
  | some ps =>
    rw [hres] at h
    injection h with h
    rw [← h]
    cases k <;> rfl

theorem add_referees_closedPreserved (db : DB) (event : Event) (kind : SumulaKind)
    (sid : Nat) (refs : List Nat) (k : SumulaKind) :
    closedPreserved (db.sumulasOf k) ((add_referees db event kind sid refs).sumulasOf k) := by
  unfold add_referees
  by_cases hk : k = kind
  · subst hk
    rw [DB.sumulasOf_setSumulas_self]
    refine closedPreserved_map _ _ (fun s => ?_) (fun s ha => ?_)
    · split <;> rfl
    · split <;> exact ha
  · rw [DB.sumulasOf_setSumulas_ne _ _ hk]
    exact closedPreserved_refl _

theorem sumulaPost_closedPreserved (db : DB) (kind : SumulaKind) (authed : Bool)
    (user : User) (eventId? : Option Nat) (body : CreateBody) (k : SumulaKind) :
    closedPreserved (db.sumulasOf k)
      ((sumulaPost db kind authed user eventId? body).1.sumulasOf k) := by
  unfold sumulaPost
  split
  · exact closedPreserved_refl _
  split
  · exact closedPreserved_refl _
  split
  · exact closedPreserved_refl _
  next event _ =>
    split
    · exact closedPreserved_refl _
    split
    · exact createdSumulaDB_closedPreserved ..
    next db2 heq =>
      refine closedPreserved_trans (createdSumulaDB_closedPreserved db kind event
        (body.name?.getD "") k) ?_
      rw [← create_players_score_sumulasOf _ _ _ _ _ _ heq k]
      exact add_referees_closedPreserved db2 event kind db.nextSumulaId
        (body.referees?.getD []) k

theorem update_sumula_closedPreserved (db : DB) (kind : SumulaKind) (sid : Nat)
    (event : Event) (body : UpdateBody) (db2 : DB)
    (h : update_sumula db kind sid event body = .ok db2) (k : SumulaKind) :
    closedPreserved (db.sumulasOf k) (db2.sumulasOf k) := by
  unfold update_sumula at h
  split at h
  · injection h with h
    subst h
    cases kind <;> cases k <;>
      first
        | exact closedPreserved_map _ _ (fun s => by split <;> rfl)
            (fun s ha => by split <;> first | rfl | exact ha)
        | exact closedPreserved_refl _
  · exact Except.noConfusion h

theorem runUpdateSumula_closedPreserved (db : DB) (kind : SumulaKind) (sid : Nat)
    (event : Event) (body : UpdateBody) (k : SumulaKind) :
    closedPreserved (db.sumulasOf k)
      ((runUpdateSumula db kind sid event body).1.sumulasOf k) := by
  unfold runUpdateSumula
  split
  · exact closedPreserved_refl _
  next db2 heq => exact update_sumula_closedPreserved _ _ _ _ _ _ heq k

theorem sumulaPut_closedPreserved (db : DB) (kind : SumulaKind) (authed : Bool)
    (user : User) (eventId? : Option Nat) (body : UpdateBody) (k : SumulaKind) :
    closedPreserved (db.sumulasOf k)
      ((sumulaPut db kind authed user eventId? body).1.sumulasOf k) := by
  unfold sumulaPut
  split
  · exact closedPreserved_refl _
  split
  · exact closedPreserved_refl _
  split
  · exact closedPreserved_refl _
  split
  · exact closedPreserved_refl _
  split
  · exact closedPreserved_refl _
  split
  · exact closedPreserved_refl _
  split
  · exact closedPreserved_refl _
  split
  · exact runUpdateSumula_closedPreserved ..
  split
  · exact closedPreserved_refl _
  split
  · exact closedPreserved_refl _
  · exact runUpdateSumula_closedPreserved ..

theorem addRefereePut_closedPreserved (db : DB) (authed : Bool) (user : User)
    (eventId? : Option Nat) (body : AddRefereeBody) (k : SumulaKind) :
    closedPreserved (db.sumulasOf k)
      ((addRefereeToSumulaPut db authed user eventId? body).1.sumulasOf k) := by
  unfold addRefereeToSumulaPut
  split
  · exact closedPreserved_refl _
  split
  · exact closedPreserved_refl _
  split
  · exact closedPreserved_refl _
  split
  · exact closedPreserved_refl _
  split
  · exact closedPreserved_refl _
  split
  · exact closedPreserved_refl _
  split
  · exact closedPreserved_refl _
  split
  · exact closedPreserved_refl _
  by_cases hk : k = kindOfFlag (body.is_imortal?.getD false)
  · subst hk
    rw [DB.sumulasOf_setSumulas_self]
    refine closedPreserved_map _ _ (fun s => ?_) (fun s ha => ?_)
    · split <;> rfl
    · split <;> exact ha
  · rw [DB.sumulasOf_setSumulas_ne _ _ hk]
    exact closedPreserved_refl _

theorem getSumulasGet_unchanged (db : DB) (authed : Bool) (user : User)
    (eventId? : Option Nat) : (getSumulasGet db authed user eventId?).1 = db := by
  unfold getSumulasGet
  split
  · rfl
  split
  · rfl
  split <;> rfl

theorem getSumulaForPlayerGet_unchanged (db : DB) (authed : Bool) (user : User)
    (eventId? : Option Nat) : (getSumulaForPlayerGet db authed user eventId?).1 = db := by
  unfold getSumulaForPlayerGet
  split
  · rfl
  split
  · rfl
  split
  · rfl
  split
  · rfl
  split <;> rfl

/-- C3: for every store, every request against any sumula view and both sumula
families, the operation preserves every existing row (same position, same id)
and never turns a closed row (`active = false`) active again: closedness is a
one-way transition. -/
theorem C3_closed_is_irreversible (db : DB) (op : Op) (k : SumulaKind) :
    closedPreserved (db.sumulasOf k) ((applyOp db op).1.sumulasOf k) := by
  cases op with
  | post kind authed user eventId? body => exact sumulaPost_closedPreserved ..
  | put kind authed user eventId? body => exact sumulaPut_closedPreserved ..
  | addReferee authed user eventId? body => exact addRefereePut_closedPreserved ..
  | getSumulas authed user eventId? =>
    show closedPreserved _ ((getSumulasGet db authed user eventId?).1.sumulasOf k)
    rw [getSumulasGet_unchanged]
    exact closedPreserved_refl _
  | getForPlayer authed user eventId? =>
    show closedPreserved _ ((getSumulaForPlayerGet db authed user eventId?).1.sumulasOf k)
    rw [getSumulaForPlayerGet_unchanged]
    exact closedPreserved_refl _

/-- C3 witness: applying the theorem to a concrete Update/Close on the store
whose classificatoria sumula is already closed: the row at position 0 keeps
its id and stays closed. -/
theorem C3_closed_is_irreversible_witness :
    (closedDB.sumulasOf .classificatoria).length ≤
      ((applyOp closedDB (.put .classificatoria true staffUser (some 1)
        updBody)).1.sumulasOf .classificatoria).length :=
  (C3_closed_is_irreversible closedDB
    (.put .classificatoria true staffUser (some 1) updBody) .classificatoria).1

/-- C5: any authenticated staff member of the event holding the
change-permission can Update/Close an open sumula: for a well-formed payload
whose score entries resolve, an existing active sumula, a resolving event, the
change grant present and any Staff row for the requester — manager or not,
referee of the sumula or not — the PUT succeeds with 200. -/
theorem C5_open_sumula_editable_by_staff (db : DB) (kind : SumulaKind)
    (user : User) (eventId? : Option Nat) (body : UpdateBody) (event : Event)
    (sumula : Sumula) (staff : Staff)
    (hvalid : (body.isDict && body.id?.isSome && body.hasName &&
        body.hasDescription) = true)
    (hps : validate_players_score body = true)
    (hid : (body.id?.getD 0 == 0) = false)
    (hfind : (db.sumulasOf kind).find? (fun s => s.id == body.id?.getD 0) =
        some sumula)
    (hactive : sumula.active = true)
    (hev : get_object db eventId? = .ok event)
    (hperm : hasPerm db user.id "api.change_sumula_event" event.id = true)
    (hstaff : db.staffs.find? (fun s => s.user == user.id &&
        s.event == event.id) = some staff)
    (hresolve : (body.players_score?.getD []).all
        (scoreEntryResolves db kind sumula.id) = true) :
    (sumulaPut db kind true user eventId? body).2 = .ok 200 := by
  unfold sumulaPut
  rw [hfind, hev, hid]
  simp only [hvalid, hps, Bool.not_true, Bool.and_false, Bool.false_eq_true,
    if_false, hasSumulaObjectPermission, hperm, String.reduceEq, reduceIte]
  unfold validate_if_staff_is_sumula_referee
  rw [hstaff]
  unfold runUpdateSumula update_sumula
  rw [if_pos hresolve]
  cases hadmin : user.email == event.admin_email
  · simp only [Bool.false_eq_true, if_false, hactive, Bool.not_true,
      Bool.false_and, Bool.and_false]
  · rfl

/-- C5 witness: the non-manager staff user, who is not a referee of the open
classificatoria sumula 10, successfully closes it. -/
theorem C5_open_sumula_editable_by_staff_witness :
    ((⟨10, 1, "quali 01", true, []⟩ : Sumula).active = true ∧
      hasPerm baseDB staffUser.id "api.change_sumula_event" 1 = true ∧
      (⟨3, 2, 1, false⟩ : Staff).is_manager = false) ∧
    (sumulaPut baseDB .classificatoria true staffUser (some 1) updBody).2 =
      .ok 200 :=
  ⟨⟨rfl, by decide, rfl⟩,
   C5_open_sumula_editable_by_staff baseDB .classificatoria staffUser (some 1)
     updBody ⟨1, "adm@rdd.br"⟩ ⟨10, 1, "quali 01", true, []⟩ ⟨3, 2, 1, false⟩
     (by decide) (by decide) (by decide) rfl rfl rfl (by decide) rfl (by decide)⟩

/-- C4 counterexample: a non-admin staff member (non-manager) without the
change grant sends a valid Update/Close for the closed sumula: the reply is
the generic permission denial, not the distinct closed-sumula message the
claim promises regardless of base CRUD permission. -/
theorem C4_closed_denial_not_closed_message_counterexample :
    staffUser.email ≠ (⟨1, "adm@rdd.br"⟩ : Event).admin_email ∧
    (⟨10, 1, "quali 01", false, []⟩ : Sumula).active = false ∧
    closedNoGrantDB.staffs = [⟨3, 2, 1, false⟩] ∧
    sumulaPut closedNoGrantDB .classificatoria true staffUser (some 1) updBody =
      (closedNoGrantDB, .forbidden) ∧
    Resp.forbidden ≠ Resp.badRequest SUMULA_IS_CLOSED_ERROR_MESSAGE :=
  ⟨by decide, rfl, rfl, rfl, fun h => Resp.noConfusion h⟩

/-- C4 amended: for a well-formed Update/Close of an existing closed sumula by
a non-admin: (1) success implies the requester has a Staff row with
is_manager = true; (2) with the change grant and a non-manager Staff row the
reply is 400 with the distinct closed-sumula message and the store unchanged;
(3) without the change grant the reply is the generic permission denial (store
unchanged); (4) with the grant but no Staff row the reply is the
staff-not-found error (store unchanged). -/
theorem C4_closed_sumula_rule_amended (db : DB) (kind : SumulaKind)
    (user : User) (eventId? : Option Nat) (body : UpdateBody) (event : Event)
    (sumula : Sumula)
    (hvalid : (body.isDict && body.id?.isSome && body.hasName &&
        body.hasDescription) = true)
    (hps : validate_players_score body = true)
    (hid : (body.id?.getD 0 == 0) = false)
    (hfind : (db.sumulasOf kind).find? (fun s => s.id == body.id?.getD 0) =
        some sumula)
    (hclosed : sumula.active = false)
    (hev : get_object db eventId? = .ok event)
    (hnonadmin : (user.email == event.admin_email) = false) :
    ((sumulaPut db kind true user eventId? body).2 = .ok 200 →
      ∃ staff, db.staffs.find? (fun s => s.user == user.id &&
          s.event == event.id) = some staff ∧ staff.is_manager = true) ∧
    (∀ staff, hasPerm db user.id "api.change_sumula_event" event.id = true →
      db.staffs.find? (fun s => s.user == user.id && s.event == event.id) =
        some staff →
      staff.is_manager = false →
      sumulaPut db kind true user eventId? body =
        (db, .badRequest SUMULA_IS_CLOSED_ERROR_MESSAGE)) ∧
    (hasPerm db user.id "api.change_sumula_event" event.id = false →
      sumulaPut db kind true user eventId? body = (db, .forbidden)) ∧
    (hasPerm db user.id "api.change_sumula_event" event.id = true →
      db.staffs.find? (fun s => s.user == user.id && s.event == event.id) =
        none →
      sumulaPut db kind true user eventId? body =
        (db, .badRequest "Usuário não é um monitor do evento!")) := by
  refine ⟨?_, ?_, ?_, ?_⟩
  · intro hok
    unfold sumulaPut at hok
    rw [hfind, hev, hid] at hok
    simp only [hvalid, hps, Bool.not_true, Bool.and_false, Bool.false_eq_true,
      if_false, hasSumulaObjectPermission, String.reduceEq, reduceIte,
      hnonadmin] at hok
    cases hperm2 : hasPerm db user.id "api.change_sumula_event" event.id with
    | false =>
      rw [hperm2] at hok
      simp at hok
    | true =>
      rw [hperm2] at hok
      simp only [Bool.not_true, Bool.false_eq_true, if_false] at hok
      unfold validate_if_staff_is_sumula_referee at hok
      cases hstaff : db.staffs.find? (fun s => s.user == user.id &&
          s.event == event.id) with
      | none =>
        rw [hstaff] at hok
        simp at hok
      | some staff =>
        rw [hstaff] at hok
        cases hmgr : staff.is_manager with
        | false => simp [hclosed, hmgr] at hok
        | true => exact ⟨staff, rfl, hmgr⟩
  · intro staff hperm2 hstaff hmgr
    unfold sumulaPut
    rw [hfind, hev, hid]
    simp only [hvalid, hps, Bool.not_true, Bool.and_false, Bool.false_eq_true,
      if_false, hasSumulaObjectPermission, String.reduceEq, reduceIte,
      hnonadmin, hperm2]
    unfold validate_if_staff_is_sumula_referee
    rw [hstaff]
    simp only [hclosed, Bool.not_false, Bool.true_and, hmgr, Bool.not_true,
      Bool.false_eq_true, reduceIte, Bool.not_false]
  · intro hperm2
    unfold sumulaPut
    rw [hfind, hev, hid]
    simp only [hvalid, hps, Bool.not_true, Bool.not_false, Bool.and_false,
      Bool.false_eq_true, if_false, hasSumulaObjectPermission, String.reduceEq,
      reduceIte, hperm2]
  · intro hperm2 hstaff
    unfold sumulaPut
    rw [hfind, hev, hid]
    simp only [hvalid, hps, Bool.not_true, Bool.and_false, Bool.false_eq_true,
      if_false, hasSumulaObjectPermission, String.reduceEq, reduceIte,
      hnonadmin, hperm2]
    unfold validate_if_staff_is_sumula_referee
    rw [hstaff]

/-- C4 witness for the amended theorem: the non-manager staff user with the
change grant on the closed sumula receives the distinct closed-sumula message,
and the store is unchanged. -/
theorem C4_closed_sumula_rule_amended_witness :
    ((staffUser.email == (⟨1, "adm@rdd.br"⟩ : Event).admin_email) = false ∧
      hasPerm closedDB staffUser.id "api.change_sumula_event" 1 = true) ∧
    sumulaPut closedDB .classificatoria true staffUser (some 1) updBody =
      (closedDB, .badRequest SUMULA_IS_CLOSED_ERROR_MESSAGE) :=
  ⟨⟨by decide, by decide⟩,
   (C4_closed_sumula_rule_amended closedDB .classificatoria staffUser (some 1)
     updBody ⟨1, "adm@rdd.br"⟩ ⟨10, 1, "quali 01", false, []⟩ (by decide)
     (by decide) (by decide) rfl rfl rfl (by decide)).2.1 ⟨3, 2, 1, false⟩
     (by decide) rfl rfl⟩

/-- C6 amended: the admin-by-email rule does not take part in the
object-permission gate — the gate for PUT consults exactly the group-derived
change grant, for every store and user — the admin precedence applies only
after the gate, to the closed-sumula/staff rule: an admin holding the change
grant closes a closed sumula with 200 even with no Staff row for the event. -/
theorem C6_admin_precedence_amended (db : DB) (kind : SumulaKind) (user : User)
    (eventId? : Option Nat) (body : UpdateBody) (event : Event) (sumula : Sumula)
    (hvalid : (body.isDict && body.id?.isSome && body.hasName &&
        body.hasDescription) = true)
    (hps : validate_players_score body = true)
    (hid : (body.id?.getD 0 == 0) = false)
    (hfind : (db.sumulasOf kind).find? (fun s => s.id == body.id?.getD 0) =
        some sumula)
    (hclosed : sumula.active = false)
    (hstaffnone : db.staffs.find? (fun s => s.user == user.id &&
        s.event == event.id) = none)
    (hev : get_object db eventId? = .ok event)
    (hadmin : (user.email == event.admin_email) = true)
    (hperm : hasPerm db user.id "api.change_sumula_event" event.id = true)
    (hresolve : (body.players_score?.getD []).all
        (scoreEntryResolves db kind sumula.id) = true) :
    (∀ (db' : DB) (u e : Nat), hasSumulaObjectPermission db' "PUT" u e =
        hasPerm db' u "api.change_sumula_event" e) ∧
    (sumulaPut db kind true user eventId? body).2 = .ok 200 := by
  constructor
  · intro db' u e
    simp only [hasSumulaObjectPermission, String.reduceEq, reduceIte]
  · unfold sumulaPut
    rw [hfind, hev, hid]
    simp only [hvalid, hps, Bool.not_true, Bool.and_false, Bool.false_eq_true,
      if_false, hasSumulaObjectPermission, String.reduceEq, reduceIte, hperm,
      hadmin, if_true]
    unfold runUpdateSumula update_sumula
    rw [if_pos hresolve]

/-- C6 witness for the amended theorem: the admin, holding the change grant
but having no Staff row, closes the already closed sumula. -/
theorem C6_admin_precedence_amended_witness :
    ((adminUser.email == (⟨1, "adm@rdd.br"⟩ : Event).admin_email) = true ∧
      closedDB.staffs.find? (fun s => s.user == adminUser.id && s.event == 1) =
        none ∧
      hasPerm closedDB adminUser.id "api.change_sumula_event" 1 = true) ∧
    ((∀ (db' : DB) (u e : Nat), hasSumulaObjectPermission db' "PUT" u e =
        hasPerm db' u "api.change_sumula_event" e) ∧
      (sumulaPut closedDB .classificatoria true adminUser (some 1) updBody).2 =
        .ok 200) :=
  ⟨⟨by decide, by decide, by decide⟩,
   C6_admin_precedence_amended closedDB .classificatoria adminUser (some 1)
     updBody ⟨1, "adm@rdd.br"⟩ ⟨10, 1, "quali 01", false, []⟩ (by decide)
     (by decide) (by decide) rfl rfl rfl rfl (by decide) (by decide) (by decide)⟩

/-- C7: for an AddReferee request with valid payload, resolving event and the
change grant: a requester with no Staff row for the event fails with the
staff-not-found error and nothing changes; with a Staff row and an existing
sumula whose referee set is empty the request succeeds and attaches exactly
the requesting staff member and no one else; when the sumula already has one
or more referees the request fails with the explicit conflict error and the
store is unchanged. -/
theorem C7_add_referee_exclusivity (db : DB) (user : User)
    (eventId? : Option Nat) (body : AddRefereeBody) (event : Event)
    (hvalid : (body.isDict && body.sumula_id?.isSome &&
        body.is_imortal?.isSome) = true)
    (hid : (body.sumula_id?.getD 0 == 0) = false)
    (hev : get_object db eventId? = .ok event)
    (hperm : hasPerm db user.id "api.change_sumula_event" event.id = true) :
    (db.staffs.find? (fun s => s.user == user.id && s.event == event.id) =
        none →
      addRefereeToSumulaPut db true user eventId? body =
        (db, .badRequest "Usuário não é um monitor do evento!")) ∧
    (∀ staff sumula,
      db.staffs.find? (fun s => s.user == user.id && s.event == event.id) =
        some staff →
      (db.sumulasOf (kindOfFlag (body.is_imortal?.getD false))).find?
        (fun s => s.id == body.sumula_id?.getD 0) = some sumula →
      ((db.sumulasOf (kindOfFlag (body.is_imortal?.getD false))).map
        (fun s => s.id)).Nodup →
      sumula.referee = [] →
      (addRefereeToSumulaPut db true user eventId? body).2 = .ok 200 ∧
      ∀ s' ∈ (addRefereeToSumulaPut db true user eventId? body).1.sumulasOf
          (kindOfFlag (body.is_imortal?.getD false)),
        (s'.id = sumula.id → s'.referee = [staff.id]) ∧
        (s'.id ≠ sumula.id →
          s' ∈ db.sumulasOf (kindOfFlag (body.is_imortal?.getD false)))) ∧
    (∀ staff sumula,
      db.staffs.find? (fun s => s.user == user.id && s.event == event.id) =
        some staff →
      (db.sumulasOf (kindOfFlag (body.is_imortal?.getD false))).find?
        (fun s => s.id == body.sumula_id?.getD 0) = some sumula →
      sumula.referee ≠ [] →
      addRefereeToSumulaPut db true user eventId? body =
        (db, .badRequest "Súmula já possui um ou mais árbitros!")) := by
  refine ⟨?_, ?_, ?_⟩
  · intro hstaff
    unfold addRefereeToSumulaPut
    rw [hev, hid]
    simp only [hvalid, Bool.not_true, Bool.not_false, Bool.false_eq_true,
      if_false, hasSumulaObjectPermission, String.reduceEq, reduceIte, hperm]
    split
    · rfl
    next staff0 h0 =>
      rw [hstaff] at h0
      exact Option.noConfusion h0
  · intro staff sumula hstaff hfind hnodup hempty
    have hmem := List.mem_of_find?_eq_some hfind
    have hrun : addRefereeToSumulaPut db true user eventId? body =
        (db.setSumulas (kindOfFlag (body.is_imortal?.getD false))
          ((db.sumulasOf (kindOfFlag (body.is_imortal?.getD false))).map
            (fun s =>
              if s.id == sumula.id then
                { s with referee := if s.referee.contains staff.id then
                    s.referee else s.referee ++ [staff.id] }
              else s)), .ok 200) := by
      unfold addRefereeToSumulaPut
      rw [hev, hid]
      simp only [hvalid, Bool.not_true, Bool.not_false, Bool.false_eq_true,
        if_false, hasSumulaObjectPermission, String.reduceEq, reduceIte, hperm]
      split
      · next h0 =>
          rw [hstaff] at h0
          exact Option.noConfusion h0
      next staff0 h0 =>
        rw [hstaff] at h0
        injection h0 with h0
        subst h0
        split
        · next h1 =>
            rw [hfind] at h1
            exact Option.noConfusion h1
        next sumula0 h1 =>
          rw [hfind] at h1
          injection h1 with h1
          subst h1
          rw [if_neg (by simp [hempty])]
    refine ⟨by rw [hrun], ?_⟩
    intro s' hs'
    rw [hrun] at hs'
    simp only [DB.sumulasOf_setSumulas_self] at hs'
    rw [List.mem_map] at hs'
    obtain ⟨s₀, hs₀mem, hs₀⟩ := hs'
    by_cases hcase : s₀.id = sumula.id
    · have hs0eq : s₀ = sumula :=
        List.inj_on_of_nodup_map hnodup hs₀mem hmem hcase
      subst hs0eq
      rw [if_pos (by simp)] at hs₀
      constructor
      · intro _
        rw [← hs₀]
        simp [hempty]
      · intro hne
        exact absurd (by rw [← hs₀]) hne
    · rw [if_neg (by simp [hcase])] at hs₀
      subst hs₀
      constructor
      · intro heq
        exact absurd heq hcase
      · intro _
        exact hs₀mem
  · intro staff sumula hstaff hfind hne
    unfold addRefereeToSumulaPut
    rw [hev, hid]
    simp only [hvalid, Bool.not_true, Bool.not_false, Bool.false_eq_true,
      if_false, hasSumulaObjectPermission, String.reduceEq, reduceIte, hperm]
    split
    · next h0 =>
        rw [hstaff] at h0
        exact Option.noConfusion h0
    next staff0 h0 =>
      rw [hstaff] at h0
      injection h0 with h0
      subst h0
      split
      · next h1 =>
          rw [hfind] at h1
          exact Option.noConfusion h1
      next sumula0 h1 =>
        rw [hfind] at h1
        injection h1 with h1
        subst h1
        rw [if_pos (List.length_pos.mpr hne)]

/-- C7 witness: the staff user self-attaches to the refereeless
classificatoria sumula 10. -/
theorem C7_add_referee_exclusivity_witness :
    (addRefereeToSumulaPut baseDB true staffUser (some 1) addRefBody).2 =
      .ok 200 :=
  ((C7_add_referee_exclusivity baseDB staffUser (some 1) addRefBody
      ⟨1, "adm@rdd.br"⟩ (by decide) (by decide) rfl (by decide)).2.1
    ⟨3, 2, 1, false⟩ ⟨10, 1, "quali 01", true, []⟩ rfl rfl (by decide) rfl).1

theorem applyEntriesToScore_shape (kind : SumulaKind) (sid : Nat) :
    ∀ (entries : List ScoreEntry) (ps : PlayerScore),
      ∃ pts, applyEntriesToScore kind sid entries ps = { ps with points := pts } := by
  intro entries
  induction entries with
  | nil => intro ps; exact ⟨ps.points, rfl⟩
  | cons e rest ih =>
    intro ps
    obtain ⟨pts, hp⟩ := ih (if e.id? == some ps.id && decide (ps.kind = kind) &&
      ps.sumula == sid then { ps with points := e.points } else ps)
    refine ⟨pts, ?_⟩
    unfold applyEntriesToScore at hp ⊢
    rw [List.foldl_cons, hp]
    split <;> rfl

theorem applyEntriesToScore_not_mentioned (kind : SumulaKind) (sid : Nat) :
    ∀ (entries : List ScoreEntry) (ps : PlayerScore),
      (∀ e ∈ entries, e.id? ≠ some ps.id) →
      applyEntriesToScore kind sid entries ps = ps := by
  intro entries
  induction entries with
  | nil => intro ps _; rfl
  | cons e rest ih =>
    intro ps h
    have hne : (e.id? == some ps.id) = false := by
      simpa using h e (List.mem_cons_self ..)
    unfold applyEntriesToScore
    rw [List.foldl_cons]
    simp only [hne, Bool.false_and, Bool.false_eq_true, if_false]
    exact ih ps (fun e' he' => h e' (List.mem_cons_of_mem _ he'))

theorem applyEntriesToScore_points (kind : SumulaKind) (sid : Nat) :
    ∀ (entries : List ScoreEntry) (ps : PlayerScore) (e : ScoreEntry),
      e ∈ entries → e.id? = some ps.id → ps.kind = kind → ps.sumula = sid →
      (entries.map (fun x => x.id?)).Nodup →
      (applyEntriesToScore kind sid entries ps).points = e.points := by
  intro entries
  induction entries with
  | nil => intro ps e hmem; exact absurd hmem (List.not_mem_nil e)
  | cons e0 rest ih =>
    intro ps e hmem hid hkind hsum hnodup
    rw [List.map_cons, List.nodup_cons] at hnodup
    obtain ⟨hnotin, hnodup'⟩ := hnodup
    rw [List.mem_cons] at hmem
    unfold applyEntriesToScore
    rw [List.foldl_cons]
    rcases hmem with rfl | hmem
    · rw [if_pos (by simp [hid, hkind, hsum])]
      have hrest : applyEntriesToScore kind sid rest { ps with points := e.points } =
          { ps with points := e.points } := by
        apply applyEntriesToScore_not_mentioned
        intro e' he' heq
        exact hnotin (List.mem_map.mpr ⟨e', he', heq.trans hid.symm⟩)
      unfold applyEntriesToScore at hrest
      rw [hrest]
    · have hfields : ∀ (q : PlayerScore),
          q = (if e0.id? == some ps.id && decide (ps.kind = kind) &&
            ps.sumula == sid then { ps with points := e0.points } else ps) →
          q.id = ps.id ∧ q.kind = ps.kind ∧ q.sumula = ps.sumula := by
        intro q hq
        subst hq
        split <;> exact ⟨rfl, rfl, rfl⟩
      obtain ⟨h1, h2, h3⟩ := hfields _ rfl
      have := ih (if e0.id? == some ps.id && decide (ps.kind = kind) &&
          ps.sumula == sid then { ps with points := e0.points } else ps) e hmem
        (by rw [h1]; exact hid) (by rw [h2]; exact hkind) (by rw [h3]; exact hsum)
        hnodup'
      unfold applyEntriesToScore at this
      exact this

/-- The effects of a successful (spec-modelled) `update_sumula` on the store:
the named sumula rows carry the supplied name, referee set and `active =
false`; every supplied entry names a score row of this sumula whose points now
equal the supplied value (and conversely every named row was overwritten);
every affected player carries the aggregation of the new score table. -/
theorem update_sumula_ok_effects (db : DB) (kind : SumulaKind) (sid : Nat)
    (event : Event) (body : UpdateBody) (db2 : DB)
    (hup : update_sumula db kind sid event body = .ok db2)
    (hnodupE : ((body.players_score?.getD []).map (fun e => e.id?)).Nodup) :
    (∀ s' ∈ db2.sumulasOf kind, s'.id = sid →
      s'.name = body.name ∧ s'.referee = body.referees ∧ s'.active = false) ∧
    (∀ e ∈ body.players_score?.getD [], ∃ ps', ps' ∈ db2.scores ∧
      e.id? = some ps'.id ∧ ps'.kind = kind ∧ ps'.sumula = sid ∧
      ps'.points = e.points) ∧
    (∀ ps' ∈ db2.scores, ∀ e ∈ body.players_score?.getD [],
      e.id? = some ps'.id → ps'.kind = kind → ps'.sumula = sid →
      ps'.points = e.points) ∧
    (∀ p' ∈ db2.players,
      p'.id ∈ affectedPlayers db kind sid (body.players_score?.getD []) →
      p'.total_score = aggScore db2.scores kind event.id p'.id) := by
  unfold update_sumula at hup
  split at hup
  case isFalse => exact Except.noConfusion hup
  case isTrue hall =>
    injection hup with hup
    have h1 : db2.sumulasOf kind = (db.sumulasOf kind).map (fun s =>
        if s.id == sid then
          { s with name := body.name, referee := body.referees, active := false }
        else s) := by
      rw [← hup]
      cases kind <;> rfl
    have h2 : db2.scores = updatedScores db kind sid (body.players_score?.getD []) := by
      rw [← hup]
    have h3 : db2.players = db.players.map (fun p =>
        if (affectedPlayers db kind sid (body.players_score?.getD [])).contains p.id then
          { p with total_score := aggScore (updatedScores db kind sid
              (body.players_score?.getD [])) kind event.id p.id }
        else p) := by
      rw [← hup]
    rw [List.all_eq_true] at hall
    refine ⟨?_, ?_, ?_, ?_⟩
    · intro s' hs' hsid
      rw [h1, List.mem_map] at hs'
      obtain ⟨s₀, _, hs₀⟩ := hs'
      by_cases hcase : s₀.id = sid
      · rw [if_pos (by simp [hcase])] at hs₀
        rw [← hs₀]
        exact ⟨rfl, rfl, rfl⟩
      · rw [if_neg (by simp [hcase])] at hs₀
        subst hs₀
        exact absurd hsid hcase
    · intro e he
      have hres := hall e he
      unfold scoreEntryResolves at hres
      cases hide : e.id? with
      | none => rw [hide] at hres; exact Bool.noConfusion hres
      | some i =>
        rw [hide] at hres
        rw [List.any_eq_true] at hres
        obtain ⟨ps, hpsmem, hps⟩ := hres
        have hps' : (ps.id = i ∧ ps.kind = kind) ∧ ps.sumula = sid := by
          simpa using hps
        obtain ⟨⟨hpid, hpkind⟩, hpsum⟩ := hps'
        obtain ⟨pts, hshape⟩ := applyEntriesToScore_shape kind sid
          (body.players_score?.getD []) ps
        refine ⟨applyEntriesToScore kind sid (body.players_score?.getD []) ps,
          ?_, ?_, ?_, ?_, ?_⟩
        · rw [h2]
          exact List.mem_map.mpr ⟨ps, hpsmem, rfl⟩
        · rw [hshape]
          simp [hpid]
        · rw [hshape]; exact hpkind
        · rw [hshape]; exact hpsum
        · exact applyEntriesToScore_points kind sid _ ps e he
            (by rw [hide, hpid]) hpkind hpsum hnodupE
    · intro ps' hps' e he heid hpkind hpsum
      rw [h2] at hps'
      unfold updatedScores at hps'
      rw [List.mem_map] at hps'
      obtain ⟨ps₀, hps₀mem, hps₀⟩ := hps'
      obtain ⟨pts, hshape⟩ := applyEntriesToScore_shape kind sid
        (body.players_score?.getD []) ps₀
      have hid0 : ps'.id = ps₀.id := by rw [← hps₀, hshape]
      have hkind0 : ps₀.kind = kind := by rw [← hpkind, ← hps₀, hshape]
      have hsum0 : ps₀.sumula = sid := by rw [← hpsum, ← hps₀, hshape]
      rw [← hps₀]
      exact applyEntriesToScore_points kind sid _ ps₀ e he
        (by rw [← hid0]; exact heid) hkind0 hsum0 hnodupE
    · intro p' hp' hmem
      rw [h3, List.mem_map] at hp'
      obtain ⟨p₀, hp₀mem, hp₀⟩ := hp'
      have hpid : p'.id = p₀.id := by
        rw [← hp₀]
        split <;> rfl
      rw [hpid] at hmem
      have hcont : (affectedPlayers db kind sid
          (body.players_score?.getD [])).contains p₀.id = true := by
        simpa using hmem
      rw [hcont] at hp₀
      simp only [if_true] at hp₀
      rw [← hp₀, h2]

/-- C2: after every successful Update/Close (result `(db2, 200)`) on an
existing sumula: every row of that sumula id carries the supplied name,
exactly the supplied referee set and `active = false`; every supplied
players_score entry names a score row of this sumula whose points equal the
supplied value (and every such named row was overwritten to the supplied
value); and every affected player carries a total_score equal to the defined
aggregation (`aggScore`) of the player PlayerScore points for that event
family over the new score table. -/
theorem C2_update_close_effects (db db2 : DB) (kind : SumulaKind) (user : User)
    (eventId? : Option Nat) (body : UpdateBody) (event : Event) (sumula : Sumula)
    (hvalid : (body.isDict && body.id?.isSome && body.hasName &&
        body.hasDescription) = true)
    (hps : validate_players_score body = true)
    (hid : (body.id?.getD 0 == 0) = false)
    (hfind : (db.sumulasOf kind).find? (fun s => s.id == body.id?.getD 0) =
        some sumula)
    (hev : get_object db eventId? = .ok event)
    (hrun : sumulaPut db kind true user eventId? body = (db2, .ok 200))
    (hnodupE : ((body.players_score?.getD []).map (fun e => e.id?)).Nodup) :
    (∀ s' ∈ db2.sumulasOf kind, s'.id = sumula.id →
      s'.name = body.name ∧ s'.referee = body.referees ∧ s'.active = false) ∧
    (∀ e ∈ body.players_score?.getD [], ∃ ps', ps' ∈ db2.scores ∧
      e.id? = some ps'.id ∧ ps'.kind = kind ∧ ps'.sumula = sumula.id ∧
      ps'.points = e.points) ∧
    (∀ ps' ∈ db2.scores, ∀ e ∈ body.players_score?.getD [],
      e.id? = some ps'.id → ps'.kind = kind → ps'.sumula = sumula.id →
      ps'.points = e.points) ∧
    (∀ p' ∈ db2.players,
      p'.id ∈ affectedPlayers db kind sumula.id (body.players_score?.getD []) →
      p'.total_score = aggScore db2.scores kind event.id p'.id) := by
  have hend : runUpdateSumula db kind sumula.id event body = (db2, .ok 200) →
      update_sumula db kind sumula.id event body = .ok db2 := by
    intro h
    unfold runUpdateSumula at h
    cases hu : update_sumula db kind sumula.id event body with
    | error e => rw [hu] at h; simp at h
    | ok dbx =>
      rw [hu] at h
      simp only [Prod.mk.injEq] at h
      rw [h.1]
  have hup : update_sumula db kind sumula.id event body = .ok db2 := by
    unfold sumulaPut at hrun
    rw [hfind, hev, hid] at hrun
    simp only [hvalid, hps, Bool.not_true, Bool.and_false, Bool.false_eq_true,
      if_false, hasSumulaObjectPermission, String.reduceEq, reduceIte] at hrun
    cases hperm : hasPerm db user.id "api.change_sumula_event" event.id with
    | false => rw [hperm] at hrun; simp at hrun
    | true =>
      rw [hperm] at hrun
      simp only [Bool.not_true, Bool.false_eq_true, if_false] at hrun
      cases hadmin : user.email == event.admin_email with
      | true =>
        rw [hadmin] at hrun
        simp only [if_true] at hrun
        exact hend hrun
      | false =>
        rw [hadmin] at hrun
        simp only [Bool.false_eq_true, if_false] at hrun
        unfold validate_if_staff_is_sumula_referee at hrun
        cases hstaff : db.staffs.find? (fun s => s.user == user.id &&
            s.event == event.id) with
        | none => rw [hstaff] at hrun; simp at hrun
        | some staff =>
          rw [hstaff] at hrun
          cases hcb : (!sumula.active && !staff.is_manager) with
          | true => simp [hcb] at hrun
          | false =>
            simp only [hcb, Bool.false_eq_true, if_false] at hrun
            exact hend hrun
  exact update_sumula_ok_effects db kind sumula.id event body db2 hup hnodupE

/-- C2 witness: the admin closes sumula 10 of `baseDB`; the theorem applied at
this concrete request yields the name/referee/active facts, the 10-point
overwrite of score row 20 and the recomputed total of player 5. -/
theorem C2_update_close_effects_witness :
    (validate_players_score updBody = true ∧
      ((updBody.players_score?.getD []).map (fun e => e.id?)).Nodup ∧
      sumulaPut baseDB .classificatoria true adminUser (some 1) updBody =
        (C2resultDB, .ok 200)) ∧
    ((∀ s' ∈ C2resultDB.sumulasOf .classificatoria,
        s'.id = (⟨10, 1, "quali 01", true, []⟩ : Sumula).id →
        s'.name = updBody.name ∧ s'.referee = updBody.referees ∧
        s'.active = false) ∧
      (∀ e ∈ updBody.players_score?.getD [], ∃ ps', ps' ∈ C2resultDB.scores ∧
        e.id? = some ps'.id ∧ ps'.kind = .classificatoria ∧
        ps'.sumula = (⟨10, 1, "quali 01", true, []⟩ : Sumula).id ∧
        ps'.points = e.points) ∧
      (∀ ps' ∈ C2resultDB.scores, ∀ e ∈ updBody.players_score?.getD [],
        e.id? = some ps'.id → ps'.kind = .classificatoria →
        ps'.sumula = (⟨10, 1, "quali 01", true, []⟩ : Sumula).id →
        ps'.points = e.points) ∧
      (∀ p' ∈ C2resultDB.players,
        p'.id ∈ affectedPlayers baseDB .classificatoria
          (⟨10, 1, "quali 01", true, []⟩ : Sumula).id
          (updBody.players_score?.getD []) →
        p'.total_score = aggScore C2resultDB.scores .classificatoria 1 p'.id)) :=
  ⟨⟨by decide, by decide, rfl⟩,
   C2_update_close_effects baseDB C2resultDB .classificatoria adminUser (some 1)
     updBody ⟨1, "adm@rdd.br"⟩ ⟨10, 1, "quali 01", true, []⟩ (by decide)
     (by decide) (by decide) rfl rfl rfl (by decide)⟩

theorem containsKey_jnum (d : Nat) (k : String) (n : Int) :
    containsKey d k (.jnum n) = false := by cases d <;> rfl

theorem containsKey_jbool (d : Nat) (k : String) (b : Bool) :
    containsKey d k (.jbool b) = false := by cases d <;> rfl

theorem containsKey_jstr (d : Nat) (k : String) (s : String) :
    containsKey d k (.jstr s) = false := by cases d <;> rfl

theorem containsKey_refereeArr (d : Nat) (k : String) (l : List Nat)
    (hk : ("id" == k) = false) :
    containsKey d k (.jarr (l.map (fun r =>
        .jobj [("id", .jnum (Int.ofNat r))]))) = false := by
  cases d with
  | zero => rfl
  | succ d =>
    show List.any _ _ = false
    rw [List.any_eq_false]
    intro v hv
    rw [List.mem_map] at hv
    obtain ⟨r, _, hr⟩ := hv
    rw [← hr]
    cases d with
    | zero => simp [containsKey]
    | succ d => simp [containsKey, hk, containsKey_jnum]

/-- The player-facing projection never carries a "points" key, at any
nesting depth. -/
theorem sumulaForPlayerView_no_points (d : Nat) (s : Sumula) :
    containsKey d "points" (sumulaForPlayerView s) = false := by
  cases d with
  | zero => rfl
  | succ d =>
    show List.any _ _ = false
    rw [List.any_eq_false]
    intro p hp
    simp only [sumulaForPlayerView, List.mem_cons, List.not_mem_nil,
      or_false] at hp
    rcases hp with rfl | rfl | rfl | rfl
    · simp [containsKey_jnum]
    · simp [containsKey_jbool]
    · simp [containsKey_jstr]
    · have h := containsKey_refereeArr d "points" s.referee (by decide)
      simpa using h

/-- C9: for a player of the event (`playerKind` selects the family matching
the eligibility class — imortal players the imortal family, others the
classificatoria family): when the player has no score row on an active sumula
of that family, the view answers the domain not-found failure rather than an
empty success list; otherwise it answers 200 with exactly the active sumulas
of that family in which the player has a PlayerScore, serialized through the
player-facing projection, which contains no "points" key at any depth. -/
theorem C9_player_view_projection (db : DB) (user : User)
    (eventId? : Option Nat) (event : Event) (player : Player)
    (hev : get_object db eventId? = .ok event)
    (hperm : hasPerm db user.id "api.view_event" event.id = true)
    (hplayer : db.players.find? (fun p => p.user == user.id &&
        p.event == event.id) = some player)
    (hnodup : ((db.sumulasOf (playerKind player)).map (fun s => s.id)).Nodup) :
    (activeScoresOfPlayer db (playerKind player) player.id = [] →
      getSumulaForPlayerGet db true user eventId? =
        (db, .badRequest "Jogador não possui nenhuma sumula associada!")) ∧
    (activeScoresOfPlayer db (playerKind player) player.id ≠ [] →
      ∃ l : List Sumula, getSumulaForPlayerGet db true user eventId? =
          (db, .okData 200 (.jarr (l.map sumulaForPlayerView))) ∧
        (∀ s ∈ l, s ∈ db.sumulasOf (playerKind player) ∧ s.active = true ∧
          ∃ ps ∈ db.scores, ps.player = player.id ∧
            ps.kind = playerKind player ∧ ps.sumula = s.id) ∧
        (∀ s ∈ db.sumulasOf (playerKind player), s.active = true →
          (∃ ps ∈ db.scores, ps.player = player.id ∧
            ps.kind = playerKind player ∧ ps.sumula = s.id) → s ∈ l) ∧
        (∀ d, containsKey d "points"
          (.jarr (l.map sumulaForPlayerView)) = false)) := by
  have hred : getSumulaForPlayerGet db true user eventId? =
      (if (activeScoresOfPlayer db (playerKind player) player.id).isEmpty then
        (db, .badRequest "Jogador não possui nenhuma sumula associada!")
      else
        (db, .okData 200 (.jarr (((activeScoresOfPlayer db (playerKind player)
            player.id).filterMap (fun ps =>
          (db.sumulasOf (playerKind player)).find?
            (fun s => s.id == ps.sumula))).map sumulaForPlayerView)))) := by
    unfold getSumulaForPlayerGet
    rw [hev]
    simp only [Bool.not_true, Bool.false_eq_true, if_false,
      getSumulaForPlayerPermission, String.reduceEq, reduceIte, hperm,
      Bool.not_false]
    rw [hplayer]
  constructor
  · intro hempty
    rw [hred, if_pos (by rw [hempty]; rfl)]
  · intro hne
    have hne' : (activeScoresOfPlayer db (playerKind player)
        player.id).isEmpty = false := by
      cases hl : activeScoresOfPlayer db (playerKind player) player.id
      · exact absurd hl hne
      · rfl
    refine ⟨(activeScoresOfPlayer db (playerKind player) player.id).filterMap
        (fun ps => (db.sumulasOf (playerKind player)).find?
          (fun s => s.id == ps.sumula)), ?_, ?_, ?_, ?_⟩
    · rw [hred, if_neg (by simp [hne'])]
    · intro s hs
      rw [List.mem_filterMap] at hs
      obtain ⟨ps, hpsmem, hfind⟩ := hs
      have hsmem := List.mem_of_find?_eq_some hfind
      have hsid : s.id = ps.sumula := by simpa using List.find?_some hfind
      unfold activeScoresOfPlayer at hpsmem
      rw [List.mem_filter] at hpsmem
      obtain ⟨hmem0, hcond⟩ := hpsmem
      have hconds : (ps.player = player.id ∧ ps.kind = playerKind player) ∧
          sumulaIsActive db (playerKind player) ps.sumula = true := by
        simpa using hcond
      have hact : s.active = true := by
        have h := hconds.2
        unfold sumulaIsActive at h
        rw [hfind] at h
        simpa using h
      exact ⟨hsmem, hact, ps, hmem0, hconds.1.1, hconds.1.2, hsid.symm⟩
    · intro s hsmem hactive hex
      obtain ⟨ps, hpsmem, hp1, hp2, hp3⟩ := hex
      have hpred : ((fun t : Sumula => t.id == ps.sumula) s) = true := by
        simp [hp3]
      have hfindsome : ∃ r, (db.sumulasOf (playerKind player)).find?
          (fun t => t.id == ps.sumula) = some r := by
        have := (@List.find?_isSome Sumula (db.sumulasOf (playerKind player))
          (fun t => t.id == ps.sumula)).mpr ⟨s, hsmem, hpred⟩
        exact Option.isSome_iff_exists.mp this
      obtain ⟨r, hr⟩ := hfindsome
      have hrs : r = s := by
        have hrmem := List.mem_of_find?_eq_some hr
        have hrid : r.id = ps.sumula := by simpa using List.find?_some hr
        exact List.inj_on_of_nodup_map hnodup hrmem hsmem (hrid.trans hp3)
      subst hrs
      rw [List.mem_filterMap]
      refine ⟨ps, ?_, hr⟩
      unfold activeScoresOfPlayer
      rw [List.mem_filter]
      refine ⟨hpsmem, ?_⟩
      have hia : sumulaIsActive db (playerKind player) ps.sumula = true := by
        unfold sumulaIsActive
        rw [hr]
        exact hactive
      simp [hp1, hp2, hia]
    · intro d
      cases d with
      | zero => rfl
      | succ d =>
        show List.any _ _ = false
        rw [List.any_eq_false]
        intro v hv
        rw [List.mem_map] at hv
        obtain ⟨s, _, hs⟩ := hv
        rw [← hs]
        simp [sumulaForPlayerView_no_points]

/-- C9 witness: the imortal player (row 8, user 9) of `baseDB` has one score
row on the active imortal sumula 11; the theorem applied at this concrete
request yields the non-empty branch and the points-free projection. -/
theorem C9_player_view_projection_witness :
    (get_object baseDB (some 1) = .ok ⟨1, "adm@rdd.br"⟩ ∧
      hasPerm baseDB imortalUser.id "api.view_event" 1 = true ∧
      baseDB.players.find? (fun p => p.user == imortalUser.id && p.event == 1) =
        some ⟨8, 9, 1, 0, true⟩) ∧
    ((activeScoresOfPlayer baseDB (playerKind ⟨8, 9, 1, 0, true⟩)
        (⟨8, 9, 1, 0, true⟩ : Player).id = [] →
      getSumulaForPlayerGet baseDB true imortalUser (some 1) =
        (baseDB, .badRequest "Jogador não possui nenhuma sumula associada!")) ∧
    (activeScoresOfPlayer baseDB (playerKind ⟨8, 9, 1, 0, true⟩)
        (⟨8, 9, 1, 0, true⟩ : Player).id ≠ [] →
      ∃ l : List Sumula, getSumulaForPlayerGet baseDB true imortalUser (some 1) =
          (baseDB, .okData 200 (.jarr (l.map sumulaForPlayerView))) ∧
        (∀ s ∈ l, s ∈ baseDB.sumulasOf (playerKind ⟨8, 9, 1, 0, true⟩) ∧
          s.active = true ∧
          ∃ ps ∈ baseDB.scores, ps.player = (⟨8, 9, 1, 0, true⟩ : Player).id ∧
            ps.kind = playerKind ⟨8, 9, 1, 0, true⟩ ∧ ps.sumula = s.id) ∧
        (∀ s ∈ baseDB.sumulasOf (playerKind ⟨8, 9, 1, 0, true⟩),
          s.active = true →
          (∃ ps ∈ baseDB.scores, ps.player = (⟨8, 9, 1, 0, true⟩ : Player).id ∧
            ps.kind = playerKind ⟨8, 9, 1, 0, true⟩ ∧ ps.sumula = s.id) →
          s ∈ l) ∧
        (∀ d, containsKey d "points"
          (.jarr (l.map sumulaForPlayerView)) = false))) :=
  ⟨⟨rfl, by decide, rfl⟩,
   C9_player_view_projection baseDB imortalUser (some 1) ⟨1, "adm@rdd.br"⟩
     ⟨8, 9, 1, 0, true⟩ rfl (by decide) rfl (by decide)⟩
